import Mathlib

/-!
# The guardian processor event loop (node/pkg/processor/processor.go)

A shallow embedding of the processor of the guardian node: the aggregation
records (vaaState), the aggregation table (vaaMap, aggregationState), the
Processor structure, its constructor NewProcessor and the event loop Run.

Conventions of the embedding.

* A Go pointer that processor.go dereferences itself (the guardian key
  in NewProcessor, the guardian set received in Run, the ticker read on entry
  to select) is an Option; none is nil and dereferencing it is a runtime
  panic, which the model makes explicit.  The logger is an Option as well:
  a call of Info on a nil logger panics inside the logging library.
* The holder of the guardian set (p.gst) is embedded as the holder object
  itself: processor.go only hands it to the method Set of package common.
* A Go map is an association list read through get, written through set and
  del; the first entry for a key is the one the map holds.
* The select statement of Run picks one ready case per iteration.  The picked
  case together with the value received is an Event, and a run of the loop is
  driven by the list of events picked, in order, each paired with the reading
  of the wall clock at that iteration (what time.Now() returns to a handler).
* A loop state is a processor in which the ticker created by Run is in place:
  Run.start p for a processor p.  The ticker is read on entry to every select.
* The five handlers called by Run live in other files of the package.  Run is
  embedded over an arbitrary family of handlers (structure Handlers); the
  handlers described by the design document are given further below.
-/

namespace Processor

/-! ## Values carried around by the processor -/

/-- An Ethereum style address (ethcommon.Address, twenty bytes), kept as the number it encodes. -/
abbrev Address := Nat

/-- A byte string ([]byte). -/
abbrev Bytes := List Nat

/-- A wall clock reading (time.Time), in ticks since some epoch. -/
abbrev Time := Nat

/-- A time.Duration: a signed count of nanoseconds. -/
abbrev Duration := Int

/-- The constant time.Second, in nanoseconds. -/
def Second : Duration := 1000000000

/-- A time.Ticker, identified by its period. -/
structure Ticker where
  d : Duration
  deriving DecidableEq, Repr

/-- The call time.NewTicker(d). -/
def NewTicker (d : Duration) : Ticker := ⟨d⟩

/-- Modelled from the spec: the type common.GuardianSet, declared in another package of the
repository: the ordered guardian identities and the epoch index (read by Run as p.gs.Index,
a uint32). -/
structure GuardianSet where
  Keys : List Address
  Index : Nat
  deriving DecidableEq, Repr

/-- Modelled from the spec: the type common.GuardianSetState, declared in another package of
the repository: the holder of the active guardian set that other components read
concurrently. -/
structure GuardianSetState where
  current : Option GuardianSet
  deriving DecidableEq, Repr

/-- Modelled from the spec: the method GuardianSetState.Set of package common, which is
not part of processor.go. It republishes the given guardian set reference to the
concurrently readable holder. -/
def GuardianSetState.Set (_st : GuardianSetState) (set : Option GuardianSet) : GuardianSetState :=
  ⟨set⟩

/-- An ecdsa.PublicKey (the curve is fixed and left out). -/
structure PublicKey where
  X : Nat
  Y : Nat
  deriving DecidableEq, Repr

/-- An ecdsa.PrivateKey: the embedded public key and the secret scalar. -/
structure PrivateKey where
  PublicKey : PublicKey
  D : Nat
  deriving DecidableEq, Repr

/-- Modelled from the spec: the type common.MessagePublication, declared in another package
of the repository: the observation record produced by a chain watcher. -/
structure MessagePublication where
  Timestamp : Time
  Nonce : Nat
  Sequence : Nat
  EmitterChain : Nat
  EmitterAddress : Address
  Payload : Bytes
  deriving DecidableEq, Repr

/-- Modelled from the spec: the type vaa.VAA, declared in another package of the repository:
the attestation body together with the signatures gathered so far, each tagged with the
index of the signing guardian. -/
structure VAA where
  GuardianSetIndex : Nat
  Signatures : List (Nat × Bytes)
  Timestamp : Time
  Nonce : Nat
  Sequence : Nat
  EmitterChain : Nat
  EmitterAddress : Address
  Payload : Bytes
  deriving DecidableEq, Repr

/-- Modelled from the spec: the type gossipv1.SignedObservation, declared in another package
of the repository: a digest, the claimed guardian identity and its signature over the
digest. -/
structure SignedObservation where
  Addr : Address
  Hash : String
  Signature : Bytes
  deriving DecidableEq, Repr

/-- Modelled from the spec: the type gossipv1.SignedVAAWithQuorum, declared in another
package of the repository: the bytes of an attestation that reached quorum elsewhere. -/
structure SignedVAAWithQuorum where
  Vaa : Bytes
  deriving DecidableEq, Repr

/-- A Go channel, identified by a number; the type of its elements is a phantom index. -/
structure Chan (α : Type) where
  id : Nat
  deriving DecidableEq, Repr

/-- A reference to a collaborator object the processor only passes along
(database, reporter, notifier, logger). -/
structure Handle where
  id : Nat
  deriving DecidableEq, Repr

/-- The cancellation cause reported by ctx.Err(). -/
inductive CtxError
  | Canceled
  | DeadlineExceeded
  deriving DecidableEq, Repr

/-- A context.Context: its identity and the value ctx.Err() reports (nil while not done). -/
structure Context where
  id : Nat
  err : Option CtxError
  deriving DecidableEq, Repr

/-- The method ctx.Err(). -/
def Context.Err (ctx : Context) : Option CtxError := ctx.err

/-! ## The aggregation table -/

/-- The local view of a given VAA (struct vaaState). -/
structure vaaState where
  firstObserved : Time
  ourVAA : Option VAA
  signatures : List (Address × Bytes)
  submitted : Bool
  settled : Bool
  source : String
  retryCount : Nat
  ourMsg : Bytes
  gs : Option GuardianSet
  deriving DecidableEq, Repr

/-- The table type vaaMap (map[string]*vaaState). -/
abbrev vaaMap := List (String × vaaState)

/-- The map literal vaaMap{}. -/
def vaaMap.empty : vaaMap := []

/-- The map read m[k]. -/
def vaaMap.get (m : vaaMap) (k : String) : Option vaaState :=
  match m with
  | [] => none
  | (k', v) :: rest => if k' = k then some v else vaaMap.get rest k

/-- The builtin delete(m, k). -/
def vaaMap.del (m : vaaMap) (k : String) : vaaMap :=
  m.filter (fun e => !decide (e.1 = k))

/-- The map write m[k] = v. -/
def vaaMap.set (m : vaaMap) (k : String) (v : vaaState) : vaaMap :=
  (k, v) :: vaaMap.del m k

/-- The keys a range loop over the map visits. -/
def vaaMap.keys (m : vaaMap) : List String :=
  (m.map (fun e => e.1)).dedup

/-- The aggregation of guardian signatures held by the node (struct aggregationState). -/
structure aggregationState where
  vaaSignatures : vaaMap
  deriving DecidableEq, Repr

end Processor

/-- The struct Processor. -/
structure Processor where
  lockC : Processor.Chan (Option Processor.MessagePublication)
  setC : Processor.Chan (Option Processor.GuardianSet)
  sendC : Processor.Chan Processor.Bytes
  obsvC : Processor.Chan (Option Processor.SignedObservation)
  signedInC : Processor.Chan (Option Processor.SignedVAAWithQuorum)
  injectC : Processor.Chan (Option Processor.VAA)
  gk : Processor.PrivateKey
  devnetMode : Bool
  devnetNumGuardians : Nat
  devnetEthRPC : String
  attestationEvents : Option Processor.Handle
  logger : Option Processor.Handle
  db : Option Processor.Handle
  gs : Option Processor.GuardianSet
  gst : Processor.GuardianSetState
  state : Processor.aggregationState
  ourAddr : Processor.Address
  cleanup : Option Processor.Ticker
  notifier : Option Processor.Handle
  deriving DecidableEq, Repr

namespace Processor

/-- The two library calls NewProcessor makes: crypto.PubkeyToAddress and supervisor.Logger. -/
structure Library where
  PubkeyToAddress : PublicKey → Address
  Logger : Context → Option Handle

/-- The constructor NewProcessor. The guardian key is a pointer that the constructor
dereferences (gk.PublicKey): on a nil key the call panics, which is the result none. -/
def NewProcessor (lib : Library) (ctx : Context) (db : Option Handle)
    (lockC : Chan (Option MessagePublication)) (setC : Chan (Option GuardianSet))
    (sendC : Chan Bytes) (obsvC : Chan (Option SignedObservation))
    (injectC : Chan (Option VAA)) (signedInC : Chan (Option SignedVAAWithQuorum))
    (gk : Option PrivateKey) (gst : GuardianSetState) (devnetMode : Bool)
    (devnetNumGuardians : Nat) (devnetEthRPC : String)
    (attestationEvents : Option Handle) (notifier : Option Handle) : Option Processor :=
  match gk with
  | none => none
  | some k =>
    some
      { lockC := lockC
        setC := setC
        sendC := sendC
        obsvC := obsvC
        signedInC := signedInC
        injectC := injectC
        gk := k
        gst := gst
        devnetMode := devnetMode
        devnetNumGuardians := devnetNumGuardians
        devnetEthRPC := devnetEthRPC
        db := db
        attestationEvents := attestationEvents
        notifier := notifier
        logger := lib.Logger ctx
        state := ⟨vaaMap.empty⟩
        ourAddr := lib.PubkeyToAddress k.PublicKey
        gs := none
        cleanup := none }

/-! ## The event loop -/

/-- The cases of the select statement of Run, in the order the source lists them. -/
inductive WaitSource
  | ctxDone
  | setC
  | lockC
  | injectC
  | obsvC
  | signedInC
  | cleanupC
  deriving DecidableEq, Repr

/-- Whether a select case receives from one of the input channels of the processor. -/
def WaitSource.isInputChannel : WaitSource → Bool
  | .setC => true
  | .lockC => true
  | .injectC => true
  | .obsvC => true
  | .signedInC => true
  | _ => false

/-- The cases of the select statement of Run, as a list in source order. -/
def selectCases : List WaitSource :=
  [.ctxDone, .setC, .lockC, .injectC, .obsvC, .signedInC, .cleanupC]

/-- What one iteration of the loop receives: the case picked by select and the value
it delivered. -/
inductive Event
  | ctxDone
  | setC (gs : Option GuardianSet)
  | lockC (k : Option MessagePublication)
  | injectC (v : Option VAA)
  | obsvC (m : Option SignedObservation)
  | signedInC (m : Option SignedVAAWithQuorum)
  | cleanupC
  deriving DecidableEq, Repr

/-- The select case an event was received from. -/
def Event.source : Event → WaitSource
  | .ctxDone => .ctxDone
  | .setC _ => .setC
  | .lockC _ => .lockC
  | .injectC _ => .injectC
  | .obsvC _ => .obsvC
  | .signedInC _ => .signedInC
  | .cleanupC => .cleanupC

/-- Something a handler hands to a collaborator outside the loop. -/
inductive Output
  | send (msg : Bytes)
  | submitVAA (hash : String) (msg : Bytes)
  | persist (hash : String) (msg : Bytes)
  | report (hash : String)
  deriving DecidableEq, Repr

/-- The five handler methods Run dispatches to. Each receives the context and the value
taken from its channel, reads the wall clock (the Time argument), may rewrite the
processor and may produce outputs. -/
structure Handlers where
  handleMessage :
    Context → Time → Processor → Option MessagePublication → Processor × List Output
  handleInjection : Context → Time → Processor → Option VAA → Processor × List Output
  handleObservation :
    Context → Time → Processor → Option SignedObservation → Processor × List Output
  handleInboundSignedVAAWithQuorum :
    Context → Time → Processor → Option SignedVAAWithQuorum → Processor × List Output
  handleCleanup : Context → Time → Processor → Processor × List Output

/-- A call Run itself makes, recorded in program order. The log call is recorded with its
message, the keys of the guardian set (which the source renders as hexadecimal strings) and
the index of the set. -/
inductive Action
  | newTicker (d : Duration)
  | logInfo (msg : String) (keys : List Address) (index : Nat)
  | gstSet (gs : Option GuardianSet)
  | handleMessage (k : Option MessagePublication)
  | handleInjection (v : Option VAA)
  | handleObservation (m : Option SignedObservation)
  | handleInboundSignedVAAWithQuorum (m : Option SignedVAAWithQuorum)
  | handleCleanup
  deriving DecidableEq, Repr

/-- How one iteration of the loop ends. -/
inductive Control
  | next
  | returned (err : Option CtxError)
  | panicked
  deriving DecidableEq, Repr

/-- The result of one iteration: how it ended, the processor it leaves behind, the calls
Run made and what the handler produced. -/
structure Step where
  control : Control
  p : Processor
  actions : List Action
  outputs : List Output

/-- The body of the select statement of Run for the case picked. On the guardian set case the
received pointer is stored into p.gs first. The arguments of the log call are evaluated next,
and reading p.gs.Index panics on a nil guardian set. The call p.logger.Info itself panics on
a nil logger. Only after the log call is p.gst.Set reached. -/
def Run.body (h : Handlers) (ctx : Context) (now : Time) (p : Processor) : Event → Step
  | .ctxDone => ⟨.returned ctx.Err, p, [], []⟩
  | .setC g =>
    let p1 := { p with gs := g }
    match g with
    | none => ⟨.panicked, p1, [], []⟩
    | some s =>
      match p1.logger with
      | none => ⟨.panicked, p1, [], []⟩
      | some _ =>
        ⟨.next, { p1 with gst := p1.gst.Set p1.gs },
          [.logInfo "guardian set updated" s.Keys s.Index, .gstSet p1.gs], []⟩
  | .lockC k =>
    let r := h.handleMessage ctx now p k
    ⟨.next, r.1, [.handleMessage k], r.2⟩
  | .injectC v =>
    let r := h.handleInjection ctx now p v
    ⟨.next, r.1, [.handleInjection v], r.2⟩
  | .obsvC m =>
    let r := h.handleObservation ctx now p m
    ⟨.next, r.1, [.handleObservation m], r.2⟩
  | .signedInC m =>
    let r := h.handleInboundSignedVAAWithQuorum ctx now p m
    ⟨.next, r.1, [.handleInboundSignedVAAWithQuorum m], r.2⟩
  | .cleanupC =>
    let r := h.handleCleanup ctx now p
    ⟨.next, r.1, [.handleCleanup], r.2⟩

/-- One iteration of the loop of Run. On entering the select statement the channel operands
of all cases are evaluated, among them p.cleanup.C, which panics when the ticker pointer is
nil; then the body of the case picked runs. -/
def Run.iteration (h : Handlers) (ctx : Context) (now : Time) (p : Processor) (e : Event) :
    Step :=
  match p.cleanup with
  | none => ⟨.panicked, p, [], []⟩
  | some _ => Run.body h ctx now p e

/-- How far a run of the loop got on the events it was given. -/
inductive Status
  | waiting
  | returned (err : Option CtxError)
  | panicked
  deriving DecidableEq, Repr

/-- The result of a run: its status, the processor, the calls made by Run, the outputs of
the handlers and the number of events consumed. -/
structure Result where
  status : Status
  p : Processor
  actions : List Action
  outputs : List Output
  consumed : Nat

/-- The for loop of Run over the events picked by select, in order. The loop stops
consuming events as soon as an iteration returns or panics. -/
def Run.loop (h : Handlers) (ctx : Context) (p : Processor) : List (Time × Event) → Result
  | [] => ⟨.waiting, p, [], [], 0⟩
  | (now, e) :: es =>
    let s := Run.iteration h ctx now p e
    match s.control with
    | .returned err => ⟨.returned err, s.p, s.actions, s.outputs, 1⟩
    | .panicked => ⟨.panicked, s.p, s.actions, s.outputs, 1⟩
    | .next =>
      let r := Run.loop h ctx s.p es
      ⟨r.status, r.p, s.actions ++ r.actions, s.outputs ++ r.outputs, r.consumed + 1⟩

/-- The statement before the loop: the cleanup ticker is created with a period of
thirty seconds and stored in p.cleanup. -/
def Run.start (p : Processor) : Processor :=
  { p with cleanup := some (NewTicker (30 * Second)) }

/-- The method Run on the events picked by select. -/
def Run (h : Handlers) (ctx : Context) (p : Processor) (es : List (Time × Event)) : Result :=
  let r := Run.loop h ctx (Run.start p) es
  ⟨r.status, r.p, .newTicker (30 * Second) :: r.actions, r.outputs, r.consumed⟩

/-! ## The handlers of the design document

The handler methods are defined in other files of the package. What follows embeds them
as the design document describes them (sections 4.3 to 4.7), over the cryptographic and
serialisation operations the document treats as given.
-/

/-- Modelled from the spec: the operations the design document leaves to collaborators
(digest keying, signing, verification, serialisation, the source label) and the fixed
parameters of the cleanup pass (settlement timeout, retry ceiling, retention window). None
of them is defined in processor.go. -/
structure Primitives where
  digest : VAA → String
  sign : PrivateKey → String → Option Bytes
  verify : String → Address → Bytes → Bool
  marshalVAA : VAA → Bytes
  unmarshalVAA : Bytes → Option VAA
  verifyVAA : GuardianSet → VAA → Bool
  marshalObservation : SignedObservation → Bytes
  sourceOf : VAA → String
  settlementTimeout : Nat
  retryCeiling : Nat
  retention : Nat

/-- Modelled from the spec: the record created on first sight of a digest, missing from the
file under study together with the handlers. Nothing is known yet but the time of first sight. -/
def newRecord (now : Time) : vaaState :=
  { firstObserved := now
    ourVAA := none
    signatures := []
    submitted := false
    settled := false
    source := ""
    retryCount := 0
    ourMsg := []
    gs := none }

/-- Modelled from the spec: the create-or-fetch step of the handlers (not in the file under
study). The record of the digest, or a fresh one stamped with the current time. -/
def fetchOrCreate (m : vaaMap) (hash : String) (now : Time) : vaaState :=
  match m.get hash with
  | some r => r
  | none => newRecord now

/-- Modelled from the spec: the write of a record into the aggregation table, as done by the
handlers (not in processor.go). -/
def store (p : Processor) (hash : String) (r : vaaState) : Processor :=
  { p with state := ⟨p.state.vaaSignatures.set hash r⟩ }

/-- Modelled from the spec: insertion into the signatures mapping of a record, done by the
handlers (not in processor.go). A later signature of the same identity overwrites. -/
def putSignature (sigs : List (Address × Bytes)) (addr : Address) (sig : Bytes) :
    List (Address × Bytes) :=
  (addr, sig) :: sigs.filter (fun e => !decide (e.1 = addr))

/-- Modelled from the spec: the supermajority threshold of the quorum evaluator (not in the
file under study): the ceiling of (2n+1)/3. -/
def quorumThreshold (n : Nat) : Nat := (2 * n + 1 + 2) / 3

/-- Modelled from the spec: the quorum evaluator (not in processor.go). It counts
the signatures whose identity is a member of the guardian set and compares the count with
the threshold. -/
def hasQuorum (g : GuardianSet) (sigs : List (Address × Bytes)) : Bool :=
  decide (quorumThreshold g.Keys.length ≤ (sigs.filter (fun e => decide (e.1 ∈ g.Keys))).length)

/-- Modelled from the spec: the signature list of the attestation assembler (not in the file
under study): for every guardian of the set that signed, in the order of the set, its index
and its signature. -/
def assemble (keys : List Address) (sigs : List (Address × Bytes)) (i : Nat) :
    List (Nat × Bytes) :=
  match keys with
  | [] => []
  | k :: rest =>
    match sigs.lookup k with
    | some sg => (i, sg) :: assemble rest sigs (i + 1)
    | none => assemble rest sigs (i + 1)

/-- Modelled from the spec: quorum evaluation followed by assembly and submission, the
common tail of the handlers (not in processor.go). With quorum against the active
guardian set, the record not yet submitted and an own attestation present, the attestation is
assembled, the record is marked submitted and the result is handed to the broadcaster, to
persistence and to the reporter. Without an active guardian set there is nothing to evaluate. -/
def evaluateQuorum (prim : Primitives) (p : Processor) (hash : String) (r : vaaState) :
    vaaState × List Output :=
  match p.gs with
  | none => (r, [])
  | some g =>
    if hasQuorum g r.signatures && !r.submitted then
      match r.ourVAA with
      | none => (r, [])
      | some v =>
        let msg := prim.marshalVAA { v with Signatures := assemble g.Keys r.signatures 0 }
        ({ r with submitted := true }, [.submitVAA hash msg, .persist hash msg, .report hash])
    else (r, [])

/-- Modelled from the spec: the tail of the local observation handler from the signing step
onward, shared with the injection handler (not in processor.go). Sign the digest,
store the attestation and its serialised form, register the own signature, snapshot the
active guardian set, broadcast the signature and evaluate quorum. When signing fails the
record stays without own attestation. -/
def signAndAggregate (prim : Primitives) (p : Processor) (hash : String) (v : VAA)
    (r : vaaState) : Processor × List Output :=
  match prim.sign p.gk hash with
  | none => (store p hash r, [])
  | some sg =>
    let r1 : vaaState :=
      { r with
        ourVAA := some v
        ourMsg := prim.marshalVAA v
        signatures := putSignature r.signatures p.ourAddr sg
        source := prim.sourceOf v
        gs := p.gs }
    let q := evaluateQuorum prim p hash r1
    (store p hash q.1, .send (prim.marshalObservation ⟨p.ourAddr, hash, sg⟩) :: q.2)

/-- Modelled from the spec: the candidate attestation built from a message publication by
the local observation handler (not in processor.go). -/
def candidate (p : Processor) (k : MessagePublication) : VAA :=
  { GuardianSetIndex := match p.gs with
      | some g => g.Index
      | none => 0
    Signatures := []
    Timestamp := k.Timestamp
    Nonce := k.Nonce
    Sequence := k.Sequence
    EmitterChain := k.EmitterChain
    EmitterAddress := k.EmitterAddress
    Payload := k.Payload }

/-- Modelled from the spec: the method handleMessage (defined in another file of the
package), section 4.3. A redelivered observation, whose record already has an own
attestation, is ignored. -/
def handleMessage (prim : Primitives) (_ctx : Context) (now : Time) (p : Processor) :
    Option MessagePublication → Processor × List Output
  | none => (p, [])
  | some k =>
    let v := candidate p k
    let hash := prim.digest v
    let r := fetchOrCreate p.state.vaaSignatures hash now
    match r.ourVAA with
    | some _ => (p, [])
    | none => signAndAggregate prim p hash v r

/-- Modelled from the spec: the method handleInjection (defined in another file of the
package), section 4.4: the tail of the local observation handler applied to the injected
attestation. -/
def handleInjection (prim : Primitives) (_ctx : Context) (now : Time) (p : Processor) :
    Option VAA → Processor × List Output
  | none => (p, [])
  | some v =>
    let hash := prim.digest v
    signAndAggregate prim p hash v (fetchOrCreate p.state.vaaSignatures hash now)

/-- Modelled from the spec: the method handleObservation (defined in another file of the
package), section 4.5. A signature that does not verify is dropped; otherwise it is
registered under the identity of its signer and quorum is evaluated. -/
def handleObservation (prim : Primitives) (_ctx : Context) (now : Time) (p : Processor) :
    Option SignedObservation → Processor × List Output
  | none => (p, [])
  | some m =>
    if prim.verify m.Hash m.Addr m.Signature then
      let r := fetchOrCreate p.state.vaaSignatures m.Hash now
      let q := evaluateQuorum prim p m.Hash
        { r with signatures := putSignature r.signatures m.Addr m.Signature }
      (store p m.Hash q.1, q.2)
    else (p, [])

/-- Modelled from the spec: the method handleInboundSignedVAAWithQuorum (defined in another
file of the package), section 4.6. An attestation that validates against the guardian set of
its stated epoch marks the local record, when there is one, as submitted, and is persisted. -/
def handleInboundSignedVAAWithQuorum (prim : Primitives) (_ctx : Context) (_now : Time)
    (p : Processor) : Option SignedVAAWithQuorum → Processor × List Output
  | none => (p, [])
  | some m =>
    match prim.unmarshalVAA m.Vaa, p.gs with
    | some v, some g =>
      if g.Index = v.GuardianSetIndex && prim.verifyVAA g v then
        let hash := prim.digest v
        match p.state.vaaSignatures.get hash with
        | some r => (store p hash { r with submitted := true }, [.persist hash m.Vaa])
        | none => (p, [.persist hash m.Vaa])
      else (p, [])
    | _, _ => (p, [])

/-- Modelled from the spec: what the cleanup pass retransmits for a record (the pass is not
in processor.go): the cached serialised attestation, or the own signature when no
attestation exists yet. -/
def retransmit (prim : Primitives) (ourAddr : Address) (hash : String) (r : vaaState) :
    List Output :=
  match r.ourVAA with
  | some _ => [.send r.ourMsg]
  | none =>
    match r.signatures.lookup ourAddr with
    | some sg => [.send (prim.marshalObservation ⟨ourAddr, hash, sg⟩)]
    | none => []

/-- Modelled from the spec: the treatment of one record by the cleanup pass, section 4.7 (the
pass is not in processor.go). The result is the record to keep, or none when it is
evicted. A settled record is evicted once older than the retention window. An unsettled
record older than the settlement timeout is settled when it was submitted; otherwise its
retry counter (a uint) is incremented and it is retransmitted while the counter is within the
retry ceiling, and settled once the ceiling is exceeded. -/
def cleanupRecord (prim : Primitives) (now : Time) (ourAddr : Address) (hash : String)
    (r : vaaState) : Option vaaState × List Output :=
  if r.settled then
    if r.firstObserved + prim.retention < now then (none, []) else (some r, [])
  else if r.firstObserved + prim.settlementTimeout < now then
    if r.submitted then (some { r with settled := true }, [.report hash])
    else
      let n := (r.retryCount + 1) % 2 ^ 64
      if n ≤ prim.retryCeiling then
        (some { r with retryCount := n }, retransmit prim ourAddr hash r)
      else (some { r with retryCount := n, settled := true }, [.report hash])
  else (some r, [])

/-- Modelled from the spec: the body of the loop of the cleanup pass over the aggregation
table (the pass is not in processor.go): the record under the visited key is
rewritten in place or deleted. -/
def cleanupVisit (prim : Primitives) (now : Time) (ourAddr : Address)
    (acc : vaaMap × List Output) (hash : String) : vaaMap × List Output :=
  match acc.1.get hash with
  | none => acc
  | some r =>
    match cleanupRecord prim now ourAddr hash r with
    | (some r1, outs) => (acc.1.set hash r1, acc.2 ++ outs)
    | (none, outs) => (acc.1.del hash, acc.2 ++ outs)

/-- Modelled from the spec: the method handleCleanup (defined in another file of the
package), section 4.7: one visit for every key of the aggregation table. -/
def handleCleanup (prim : Primitives) (_ctx : Context) (now : Time) (p : Processor) :
    Processor × List Output :=
  let r := p.state.vaaSignatures.keys.foldl (cleanupVisit prim now p.ourAddr)
    (p.state.vaaSignatures, [])
  ({ p with state := ⟨r.1⟩ }, r.2)

/-- Modelled from the spec: the five handlers of the design document, as the family Run
dispatches to. -/
def handlers (prim : Primitives) : Handlers :=
  { handleMessage := handleMessage prim
    handleInjection := handleInjection prim
    handleObservation := handleObservation prim
    handleInboundSignedVAAWithQuorum := handleInboundSignedVAAWithQuorum prim
    handleCleanup := handleCleanup prim }

/-! ## Vocabulary of the properties -/

/-- The select case whose events a handler call serves; none for a call that is not a
handler call. -/
def Action.serves : Action → Option WaitSource
  | .handleMessage _ => some .lockC
  | .handleInjection _ => some .injectC
  | .handleObservation _ => some .obsvC
  | .handleInboundSignedVAAWithQuorum _ => some .signedInC
  | .handleCleanup => some .cleanupC
  | _ => none

/-- The handler calls among the calls of an iteration. -/
def handlerCalls (as : List Action) : List Action :=
  as.filter (fun a => a.serves.isSome)

/-- Whether a call creates a ticker. -/
def Action.isNewTicker : Action → Bool
  | .newTicker _ => true
  | _ => false

/-- Whether the aggregation table holds a record for the digest. -/
def hasRecord (p : Processor) (hash : String) : Bool :=
  (p.state.vaaSignatures.get hash).isSome

/-- Whether the aggregation table holds a record for the digest with the submitted flag set. -/
def submittedAt (p : Processor) (hash : String) : Bool :=
  match p.state.vaaSignatures.get hash with
  | some r => r.submitted
  | none => false

/-- Whether an output is the submission of the attestation of the digest. -/
def Output.isSubmission (hash : String) : Output → Bool
  | .submitVAA h _ => decide (h = hash)
  | _ => false

/-- The number of submissions of the attestation of the digest among the outputs. -/
def submissions (hash : String) (outs : List Output) : Nat :=
  (outs.filter (Output.isSubmission hash)).length

/-- Whether the record of the digest survives every iteration of a run of the loop: no
iteration starts with a record for the digest and ends without one. -/
def Run.keeps (h : Handlers) (ctx : Context) (hash : String) (p : Processor) :
    List (Time × Event) → Bool
  | [] => true
  | (now, e) :: es =>
    let s := Run.iteration h ctx now p e
    (!hasRecord p hash || hasRecord s.p hash) &&
      (match s.control with
       | .next => Run.keeps h ctx hash s.p es
       | _ => true)

/-- What an iteration that takes the processor from p to q and produces the outputs outs
owes to the record of a digest: a submitted record that is still there is still submitted,
a submitted record is not submitted again, there is at most one submission, and a
submission leaves the record submitted. -/
def StepOk (hash : String) (p q : Processor) (outs : List Output) : Prop :=
  (submittedAt p hash = true → hasRecord q hash = true → submittedAt q hash = true) ∧
  (submittedAt p hash = true → submissions hash outs = 0) ∧
  submissions hash outs ≤ 1 ∧
  (submissions hash outs = 1 → submittedAt q hash = true)

/-! ## Sample values -/

/-- Handlers that leave the processor alone and produce nothing. -/
def idleHandlers : Handlers :=
  { handleMessage := fun _ _ p _ => (p, [])
    handleInjection := fun _ _ p _ => (p, [])
    handleObservation := fun _ _ p _ => (p, [])
    handleInboundSignedVAAWithQuorum := fun _ _ p _ => (p, [])
    handleCleanup := fun _ _ p => (p, []) }

/-- A context cancelled by its owner. -/
def sampleContext : Context := ⟨1, some .Canceled⟩

/-- Primitives under which every signature verifies and every guardian signs its own address. -/
def samplePrimitives : Primitives :=
  { digest := fun v => if v.Sequence = 0 then "zero" else "other"
    sign := fun k _ => some [k.D]
    verify := fun _ _ _ => true
    marshalVAA := fun v => v.Payload
    unmarshalVAA := fun _ => none
    verifyVAA := fun _ _ => true
    marshalObservation := fun m => m.Signature
    sourceOf := fun _ => "sample"
    settlementTimeout := 10
    retryCeiling := 3
    retention := 100 }

/-- A guardian key. -/
def sampleKey : PrivateKey := ⟨⟨3, 4⟩, 5⟩

/-- A processor as NewProcessor builds it, with an empty table and no guardian set. -/
def sampleProcessor : Processor :=
  { lockC := ⟨1⟩
    setC := ⟨2⟩
    sendC := ⟨3⟩
    obsvC := ⟨4⟩
    signedInC := ⟨5⟩
    injectC := ⟨6⟩
    gk := sampleKey
    devnetMode := false
    devnetNumGuardians := 0
    devnetEthRPC := ""
    attestationEvents := none
    logger := some ⟨0⟩
    db := none
    gs := none
    gst := ⟨none⟩
    state := ⟨vaaMap.empty⟩
    ourAddr := 7
    cleanup := some (NewTicker (30 * Second))
    notifier := none }

/-- The sample processor without a logger. -/
def sampleProcessorNoLogger : Processor :=
  { sampleProcessor with logger := none }

/-- A guardian set whose only member is the sample processor. -/
def sampleSet : GuardianSet := ⟨[7], 0⟩

/-- A message publication with sequence number zero. -/
def sampleMessage : MessagePublication := ⟨0, 0, 0, 2, 9, [1, 2]⟩

/-- A run of the loop: a guardian set update, the same local observation delivered twice,
the same remote signature delivered twice, and a cleanup tick. -/
def sampleRun : List (Time × Event) :=
  [(1, .setC (some sampleSet)), (2, .lockC (some sampleMessage)),
    (3, .lockC (some sampleMessage)), (4, .obsvC (some ⟨7, "zero", [5]⟩)),
    (5, .obsvC (some ⟨7, "zero", [5]⟩)), (50, .cleanupC)]

end Processor

/-! ## Properties of the event loop and of the constructor -/

namespace Processor

/-- An iteration never creates a ticker. -/
theorem iteration_creates_no_ticker (h : Handlers) (ctx : Context) (now : Time)
    (p : Processor) (e : Event) :
    (Run.iteration h ctx now p e).actions.filter Action.isNewTicker = [] := by
  unfold Run.iteration
  cases p.cleanup with
  | none => rfl
  | some t =>
    cases e with
    | setC g =>
      cases g with
      | none => rfl
      | some s =>
        simp only [Run.body]
        split <;> rfl
    | _ => rfl

/-- The loop itself never creates a ticker. -/
theorem loop_creates_no_ticker (h : Handlers) (ctx : Context) (es : List (Time × Event)) :
    ∀ p : Processor, (Run.loop h ctx p es).actions.filter Action.isNewTicker = [] := by
  induction es with
  | nil => intro p; rfl
  | cons te es ih =>
    intro p
    obtain ⟨now, e⟩ := te
    have hs := iteration_creates_no_ticker h ctx now p e
    cases hc : (Run.iteration h ctx now p e).control with
    | returned err => simpa only [Run.loop, hc] using hs
    | panicked => simpa only [Run.loop, hc] using hs
    | next => simp only [Run.loop, hc, List.filter_append, hs, ih, List.append_nil]

/-- Reading a key of the table after a delete. -/
theorem get_del (m : vaaMap) (k k2 : String) :
    (m.del k).get k2 = if k = k2 then none else m.get k2 := by
  induction m with
  | nil => simp [vaaMap.del, vaaMap.get]
  | cons e m ih =>
    obtain ⟨a, v⟩ := e
    simp only [vaaMap.del, List.filter_cons] at ih ⊢
    by_cases ha : a = k
    · subst ha
      by_cases hk : a = k2
      · simpa [vaaMap.get, hk] using ih
      · simpa [vaaMap.get, hk] using ih
    · by_cases hk : k = k2
      · subst hk
        simpa [vaaMap.get, ha] using ih
      · by_cases h2 : a = k2
        · subst h2
          simp [vaaMap.get, ha, hk]
        · simpa [vaaMap.get, ha, hk, h2] using ih

/-- Reading a key of the table after a write. -/
theorem get_set (m : vaaMap) (k k2 : String) (v : vaaState) :
    (m.set k v).get k2 = if k = k2 then some v else m.get k2 := by
  by_cases hk : k = k2
  · simp [vaaMap.set, vaaMap.get, hk]
  · simp [vaaMap.set, vaaMap.get, hk, get_del]

/-- The submitted flag of a digest after a record was stored. -/
theorem submittedAt_store (p : Processor) (h hash : String) (r : vaaState) :
    submittedAt (store p h r) hash = if h = hash then r.submitted else submittedAt p hash := by
  by_cases hk : h = hash
  · simp [submittedAt, store, get_set, hk]
  · simp [submittedAt, store, get_set, hk]

/-- The fetched or created record is submitted exactly when the table says so. -/
theorem fetchOrCreate_submitted (p : Processor) (h : String) (now : Time) :
    (fetchOrCreate p.state.vaaSignatures h now).submitted = submittedAt p h := by
  unfold fetchOrCreate submittedAt
  cases p.state.vaaSignatures.get h <;> rfl

/-- An iteration that changes nothing and submits nothing is in order. -/
theorem stepOk_same (hash : String) (p : Processor) (outs : List Output)
    (houts : submissions hash outs = 0) : StepOk hash p p outs := by
  refine ⟨fun hs _ => hs, fun _ => houts, by omega, fun h1 => by omega⟩

/-- Storing a record that keeps the submitted flag, without submitting, is in order. -/
theorem stepOk_store (hash h : String) (p : Processor) (r : vaaState) (outs : List Output)
    (hr : submittedAt p h = true → r.submitted = true)
    (houts : submissions hash outs = 0) : StepOk hash p (store p h r) outs := by
  refine ⟨fun hs _ => ?_, fun _ => houts, by omega, fun h1 => by omega⟩
  rw [submittedAt_store]
  by_cases hk : h = hash
  · subst hk; simpa using hr hs
  · simpa [hk] using hs

/-- Quorum evaluation keeps a set flag, submits at most once, only for its own digest and
only for a record that was not submitted, and a submission sets the flag. -/
theorem evaluateQuorum_spec (prim : Primitives) (p : Processor) (h hash : String)
    (r : vaaState) :
    (r.submitted = true → (evaluateQuorum prim p h r).1.submitted = true) ∧
    (r.submitted = true → submissions hash (evaluateQuorum prim p h r).2 = 0) ∧
    submissions hash (evaluateQuorum prim p h r).2 ≤ 1 ∧
    (submissions hash (evaluateQuorum prim p h r).2 = 1 →
      h = hash ∧ (evaluateQuorum prim p h r).1.submitted = true) := by
  unfold evaluateQuorum
  cases hg : p.gs with
  | none => simp [submissions]
  | some g =>
    cases hv : r.ourVAA with
    | none => simp [submissions]
    | some v =>
      by_cases hq : hasQuorum g r.signatures = true
      · cases hs : r.submitted
        · by_cases hk : h = hash
          · simp [submissions, Output.isSubmission, hq, hk]
          · simp [submissions, Output.isSubmission, hq, hk]
        · simp [submissions, hq, hs]
      · simp [submissions, hq]

/-- Storing the outcome of quorum evaluation on a record that carries the flag of the table
is in order. -/
theorem stepOk_evaluate (prim : Primitives) (p : Processor) (h hash : String) (r : vaaState)
    (pre : List Output) (hr : r.submitted = submittedAt p h)
    (hpre : submissions hash pre = 0) :
    StepOk hash p (store p h (evaluateQuorum prim p h r).1)
      (pre ++ (evaluateQuorum prim p h r).2) := by
  obtain ⟨e1, e2, e3, e4⟩ := evaluateQuorum_spec prim p h hash r
  have hsum : submissions hash (pre ++ (evaluateQuorum prim p h r).2) =
      submissions hash (evaluateQuorum prim p h r).2 := by
    simp only [submissions, List.filter_append, List.length_append] at hpre ⊢
    omega
  rw [StepOk, hsum, submittedAt_store]
  refine ⟨fun hs _ => ?_, fun hs => ?_, e3, fun h1 => ?_⟩
  · by_cases hk : h = hash
    · subst hk; simpa using e1 (hr.trans hs)
    · simpa [hk] using hs
  · by_cases hk : h = hash
    · subst hk; exact e2 (hr.trans hs)
    · have := e4
      have h01 : submissions hash (evaluateQuorum prim p h r).2 ≠ 1 := fun h1 => hk (e4 h1).1
      omega
  · obtain ⟨hk, hsub⟩ := e4 h1
    simpa [hk] using hsub

/-- The tail of the local observation handler is in order. -/
theorem stepOk_signAndAggregate (prim : Primitives) (p : Processor) (h hash : String)
    (v : VAA) (r : vaaState) (hr : r.submitted = submittedAt p h) :
    StepOk hash p (signAndAggregate prim p h v r).1 (signAndAggregate prim p h v r).2 := by
  unfold signAndAggregate
  cases prim.sign p.gk h with
  | none => exact stepOk_store hash h p r [] (fun hs => hr.trans hs) rfl
  | some sg =>
    exact stepOk_evaluate prim p h hash _ [.send (prim.marshalObservation ⟨p.ourAddr, h, sg⟩)]
      hr rfl

/-- The local observation handler is in order. -/
theorem stepOk_handleMessage (prim : Primitives) (ctx : Context) (now : Time) (p : Processor)
    (k : Option MessagePublication) (hash : String) :
    StepOk hash p (handleMessage prim ctx now p k).1 (handleMessage prim ctx now p k).2 := by
  cases k with
  | none => exact stepOk_same hash p [] rfl
  | some k =>
    simp only [handleMessage]
    cases hv : (fetchOrCreate p.state.vaaSignatures (prim.digest (candidate p k)) now).ourVAA with
    | some v => exact stepOk_same hash p [] rfl
    | none => exact stepOk_signAndAggregate prim p _ hash _ _ (fetchOrCreate_submitted p _ now)

/-- The injection handler is in order. -/
theorem stepOk_handleInjection (prim : Primitives) (ctx : Context) (now : Time)
    (p : Processor) (v : Option VAA) (hash : String) :
    StepOk hash p (handleInjection prim ctx now p v).1 (handleInjection prim ctx now p v).2 := by
  cases v with
  | none => exact stepOk_same hash p [] rfl
  | some v => exact stepOk_signAndAggregate prim p _ hash _ _ (fetchOrCreate_submitted p _ now)

/-- The handler of remote signatures is in order. -/
theorem stepOk_handleObservation (prim : Primitives) (ctx : Context) (now : Time)
    (p : Processor) (m : Option SignedObservation) (hash : String) :
    StepOk hash p (handleObservation prim ctx now p m).1
      (handleObservation prim ctx now p m).2 := by
  cases m with
  | none => exact stepOk_same hash p [] rfl
  | some m =>
    simp only [handleObservation]
    by_cases hv : prim.verify m.Hash m.Addr m.Signature = true
    · simp only [hv, if_true]
      exact stepOk_evaluate prim p m.Hash hash _ [] (fetchOrCreate_submitted p _ now) rfl
    · simp only [hv]
      exact stepOk_same hash p [] rfl

/-- The handler of finished attestations is in order. -/
theorem stepOk_handleInbound (prim : Primitives) (ctx : Context) (now : Time)
    (p : Processor) (m : Option SignedVAAWithQuorum) (hash : String) :
    StepOk hash p (handleInboundSignedVAAWithQuorum prim ctx now p m).1
      (handleInboundSignedVAAWithQuorum prim ctx now p m).2 := by
  cases m with
  | none => exact stepOk_same hash p [] rfl
  | some m =>
    simp only [handleInboundSignedVAAWithQuorum]
    cases hu : prim.unmarshalVAA m.Vaa with
    | none => exact stepOk_same hash p [] rfl
    | some v =>
      cases hg : p.gs with
      | none => exact stepOk_same hash p [] rfl
      | some g =>
        simp only []
        by_cases hc : (decide (g.Index = v.GuardianSetIndex) && prim.verifyVAA g v) = true
        · simp only [hc, if_true]
          cases hr : p.state.vaaSignatures.get (prim.digest v) with
          | none => exact stepOk_same hash p _ rfl
          | some r => exact stepOk_store hash _ p _ _ (fun _ => rfl) rfl
        · simp only [hc]
          exact stepOk_same hash p [] rfl

/-- The cleanup pass never submits when it retransmits. -/
theorem submissions_retransmit (prim : Primitives) (a : Address) (h hash : String)
    (r : vaaState) : submissions hash (retransmit prim a h r) = 0 := by
  unfold retransmit
  cases r.ourVAA with
  | some v => rfl
  | none => cases r.signatures.lookup a <;> rfl

/-- The cleanup pass keeps the submitted flag of a record it keeps, and never submits. -/
theorem cleanupRecord_spec (prim : Primitives) (now : Time) (a : Address) (h hash : String)
    (r : vaaState) :
    (∀ r1, (cleanupRecord prim now a h r).1 = some r1 → r1.submitted = r.submitted) ∧
    submissions hash (cleanupRecord prim now a h r).2 = 0 := by
  unfold cleanupRecord
  dsimp only
  split_ifs <;> refine ⟨fun r1 h1 => ?_, ?_⟩ <;>
    first
    | exact submissions_retransmit prim a h hash r
    | rfl
    | (simp only [Option.some.injEq] at h1; subst h1; rfl)
    | (simp at h1)

/-- One visit of the cleanup pass: a record still in the table was there before with the
same submitted flag, and no submission was added. -/
theorem cleanupVisit_spec (prim : Primitives) (now : Time) (a : Address) (m0 : vaaMap)
    (hash : String) (acc : vaaMap × List Output) (k : String)
    (hinv : (∀ r1, acc.1.get hash = some r1 →
        ∃ r, m0.get hash = some r ∧ r1.submitted = r.submitted) ∧ submissions hash acc.2 = 0) :
    (∀ r1, (cleanupVisit prim now a acc k).1.get hash = some r1 →
        ∃ r, m0.get hash = some r ∧ r1.submitted = r.submitted) ∧
      submissions hash (cleanupVisit prim now a acc k).2 = 0 := by
  obtain ⟨h1, h2⟩ := hinv
  cases hget : acc.1.get k with
  | none =>
    simp only [cleanupVisit, hget]
    exact ⟨h1, h2⟩
  | some r =>
    obtain ⟨c1, c2⟩ := cleanupRecord_spec prim now a k hash r
    have hout : submissions hash (acc.2 ++ (cleanupRecord prim now a k r).2) = 0 := by
      simp only [submissions, List.filter_append, List.length_append] at h2 c2 ⊢
      omega
    rcases hres : cleanupRecord prim now a k r with ⟨o, outs⟩
    rw [hres] at c1 hout
    simp only [cleanupVisit, hget, hres]
    cases o with
    | none =>
      refine ⟨fun r1 hr1 => ?_, hout⟩
      simp only [get_del] at hr1
      by_cases hk : k = hash
      · simp [hk] at hr1
      · simp only [hk, if_false] at hr1
        exact h1 r1 hr1
    | some r2 =>
      refine ⟨fun r1 hr1 => ?_, hout⟩
      simp only [get_set] at hr1
      by_cases hk : k = hash
      · subst hk
        simp only [if_true, Option.some.injEq] at hr1
        subst hr1
        obtain ⟨r0, hr0, hs0⟩ := h1 r hget
        exact ⟨r0, hr0, (c1 r2 rfl).trans hs0⟩
      · simp only [hk, if_false] at hr1
        exact h1 r1 hr1

/-- The whole cleanup pass, as a fold of visits. -/
theorem cleanupFold_spec (prim : Primitives) (now : Time) (a : Address) (m0 : vaaMap)
    (hash : String) (ks : List String) :
    ∀ acc : vaaMap × List Output,
      ((∀ r1, acc.1.get hash = some r1 →
        ∃ r, m0.get hash = some r ∧ r1.submitted = r.submitted) ∧
        submissions hash acc.2 = 0) →
      (∀ r1, (ks.foldl (cleanupVisit prim now a) acc).1.get hash = some r1 →
        ∃ r, m0.get hash = some r ∧ r1.submitted = r.submitted) ∧
        submissions hash (ks.foldl (cleanupVisit prim now a) acc).2 = 0 := by
  induction ks with
  | nil => intro acc hinv; exact hinv
  | cons k ks ih =>
    intro acc hinv
    exact ih _ (cleanupVisit_spec prim now a m0 hash acc k hinv)

/-- The cleanup handler is in order. -/
theorem stepOk_handleCleanup (prim : Primitives) (ctx : Context) (now : Time)
    (p : Processor) (hash : String) :
    StepOk hash p (handleCleanup prim ctx now p).1 (handleCleanup prim ctx now p).2 := by
  obtain ⟨f1, f2⟩ := cleanupFold_spec prim now p.ourAddr p.state.vaaSignatures hash
    p.state.vaaSignatures.keys (p.state.vaaSignatures, [])
    ⟨fun r1 hr1 => ⟨r1, hr1, rfl⟩, rfl⟩
  simp only [handleCleanup]
  refine ⟨fun hs hrec => ?_, fun _ => f2, by omega, fun h1 => by omega⟩
  simp only [submittedAt, hasRecord] at hs hrec ⊢
  cases hq : (List.foldl (cleanupVisit prim now p.ourAddr) (p.state.vaaSignatures, [])
      p.state.vaaSignatures.keys).1.get hash with
  | none => simp [hq] at hrec
  | some r1 =>
    obtain ⟨r, hr, hsub⟩ := f1 r1 hq
    simp only [hr] at hs
    simpa [hsub] using hs

/-- Every iteration of Run over the handlers of the design document is in order. -/
theorem stepOk_iteration (prim : Primitives) (ctx : Context) (now : Time) (p : Processor)
    (e : Event) (hash : String) :
    StepOk hash p (Run.iteration (handlers prim) ctx now p e).p
      (Run.iteration (handlers prim) ctx now p e).outputs := by
  unfold Run.iteration
  cases p.cleanup with
  | none => exact stepOk_same hash p [] rfl
  | some t =>
    cases e with
    | ctxDone => exact stepOk_same hash p [] rfl
    | setC g =>
      cases g with
      | none => exact ⟨fun hs _ => hs, fun _ => rfl, Nat.zero_le _, fun h1 => by cases h1⟩
      | some g =>
        simp only [Run.body]
        split <;> exact ⟨fun hs _ => hs, fun _ => rfl, Nat.zero_le _, fun h1 => by cases h1⟩
    | lockC k => exact stepOk_handleMessage prim ctx now p k hash
    | injectC v => exact stepOk_handleInjection prim ctx now p v hash
    | obsvC m => exact stepOk_handleObservation prim ctx now p m hash
    | signedInC m => exact stepOk_handleInbound prim ctx now p m hash
    | cleanupC => exact stepOk_handleCleanup prim ctx now p hash

/-- Submissions of two batches of outputs add up. -/
theorem submissions_append (hash : String) (a b : List Output) :
    submissions hash (a ++ b) = submissions hash a + submissions hash b := by
  simp [submissions, List.filter_append]

/-- A submitted record is a record. -/
theorem hasRecord_of_submittedAt (p : Processor) (hash : String)
    (hs : submittedAt p hash = true) : hasRecord p hash = true := by
  unfold submittedAt at hs
  unfold hasRecord
  cases hg : p.state.vaaSignatures.get hash with
  | none => simp [hg] at hs
  | some r => rfl

/-- Storing a record evicts nothing. -/
theorem hasRecord_store (p : Processor) (h hash : String) (r : vaaState)
    (hp : hasRecord p hash = true) : hasRecord (store p h r) hash = true := by
  unfold hasRecord store at *
  by_cases hk : h = hash
  · simp [get_set, hk]
  · simpa [get_set, hk] using hp

/-- Only the cleanup tick can evict a record: every other iteration keeps the record of a
digest that had one. -/
theorem iteration_keeps_record (prim : Primitives) (ctx : Context) (now : Time)
    (p : Processor) (e : Event) (hash : String) (he : e ≠ .cleanupC)
    (hp : hasRecord p hash = true) :
    hasRecord (Run.iteration (handlers prim) ctx now p e).p hash = true := by
  unfold Run.iteration
  cases p.cleanup with
  | none => exact hp
  | some t =>
    cases e with
    | ctxDone => exact hp
    | setC g =>
      cases g with
      | none => exact hp
      | some g =>
        simp only [Run.body]
        split <;> exact hp
    | lockC k =>
      cases k with
      | none => exact hp
      | some k =>
        simp only [Run.body, handlers, handleMessage]
        cases (fetchOrCreate p.state.vaaSignatures (prim.digest (candidate p k)) now).ourVAA with
        | some v => exact hp
        | none =>
          simp only [signAndAggregate]
          cases prim.sign p.gk (prim.digest (candidate p k)) <;> exact hasRecord_store _ _ _ _ hp
    | injectC v =>
      cases v with
      | none => exact hp
      | some v =>
        simp only [Run.body, handlers, handleInjection, signAndAggregate]
        cases prim.sign p.gk (prim.digest v) <;> exact hasRecord_store _ _ _ _ hp
    | obsvC m =>
      cases m with
      | none => exact hp
      | some m =>
        simp only [Run.body, handlers, handleObservation]
        by_cases hv : prim.verify m.Hash m.Addr m.Signature = true
        · simp only [hv, if_true]
          exact hasRecord_store _ _ _ _ hp
        · simp only [hv]
          exact hp
    | signedInC m =>
      cases m with
      | none => exact hp
      | some m =>
        simp only [Run.body, handlers, handleInboundSignedVAAWithQuorum]
        cases prim.unmarshalVAA m.Vaa with
        | none => exact hp
        | some v =>
          cases hg : p.gs with
          | none => exact hp
          | some g =>
            simp only []
            by_cases hc : (decide (g.Index = v.GuardianSetIndex) && prim.verifyVAA g v) = true
            · simp only [hc, if_true]
              cases p.state.vaaSignatures.get (prim.digest v) with
              | none => exact hp
              | some r => exact hasRecord_store _ _ _ _ hp
            · simp only [hc]
              exact hp
    | cleanupC => exact absurd rfl he

/-- A run without cleanup ticks keeps the record of every digest. -/
theorem keeps_without_cleanup (prim : Primitives) (ctx : Context) (hash : String)
    (es : List (Time × Event)) (hes : ∀ te ∈ es, te.2 ≠ Event.cleanupC) :
    ∀ p : Processor, Run.keeps (handlers prim) ctx hash p es = true := by
  induction es with
  | nil => intro p; rfl
  | cons te es ih =>
    intro p
    obtain ⟨now, e⟩ := te
    have he : e ≠ Event.cleanupC := hes (now, e) (List.mem_cons_self _ _)
    have hrest := ih (fun te hte => hes te (List.mem_cons_of_mem _ hte))
    simp only [Run.keeps, Bool.and_eq_true, Bool.or_eq_true, Bool.not_eq_true']
    refine ⟨?_, ?_⟩
    · cases hp : hasRecord p hash with
      | false => exact Or.inl rfl
      | true => exact Or.inr (iteration_keeps_record prim ctx now p e hash he hp)
    · cases (Run.iteration (handlers prim) ctx now p e).control with
      | next => exact hrest _
      | returned err => rfl
      | panicked => rfl

/-- C1 (as stated, refuted): a guardian set update that delivers a nil pointer is not the
cancellation event, yet the iteration does not proceed to the next one: it panics. -/
theorem nil_set_update_ends_loop_without_cancellation :
    Event.setC none ≠ Event.ctxDone ∧
    (Run.iteration idleHandlers sampleContext 0 sampleProcessor
      (.setC none)).control = .panicked ∧
    (Run.iteration idleHandlers sampleContext 0 sampleProcessor
      (.setC none)).control ≠ .next := by
  decide

/-- C1 (amended): in every loop state, one iteration of Run returns if and only if the
selected event is the context cancellation, and then it returns exactly ctx.Err(). On a
local observation, a local injection, a remote signature, a remote finished attestation and
a cleanup tick it proceeds to the next iteration. On a guardian set update it proceeds if and
only if the received set is not nil and the logger of the processor is not nil; otherwise,
and only then, the iteration panics. -/
theorem iteration_returns_iff_cancelled (h : Handlers) (ctx : Context) (now : Time)
    (p : Processor) (e : Event) :
    (Run.iteration h ctx now (Run.start p) .ctxDone).control = .returned ctx.Err ∧
    ((∃ err, (Run.iteration h ctx now (Run.start p) e).control = .returned err) ↔
      e = .ctxDone) ∧
    (∀ k, (Run.iteration h ctx now (Run.start p) (.lockC k)).control = .next) ∧
    (∀ v, (Run.iteration h ctx now (Run.start p) (.injectC v)).control = .next) ∧
    (∀ m, (Run.iteration h ctx now (Run.start p) (.obsvC m)).control = .next) ∧
    (∀ m, (Run.iteration h ctx now (Run.start p) (.signedInC m)).control = .next) ∧
    (Run.iteration h ctx now (Run.start p) .cleanupC).control = .next ∧
    ((Run.iteration h ctx now (Run.start p) e).control = .next ↔
      (e ≠ .ctxDone ∧ ∀ g, e = .setC g → g ≠ none ∧ (Run.start p).logger ≠ none)) ∧
    ((Run.iteration h ctx now (Run.start p) e).control = .panicked ↔
      ∃ g, e = .setC g ∧ (g = none ∨ (Run.start p).logger = none)) := by
  refine ⟨rfl, ?_, fun _ => rfl, fun _ => rfl, fun _ => rfl, fun _ => rfl, rfl, ?_, ?_⟩
  · cases e with
    | setC g =>
      cases g with
      | none => simp [Run.iteration, Run.start, Run.body]
      | some s => cases hl : p.logger <;> simp [Run.iteration, Run.start, Run.body, hl]
    | _ => simp [Run.iteration, Run.start, Run.body]
  · cases e with
    | setC g =>
      cases g with
      | none => simp [Run.iteration, Run.start, Run.body]
      | some s => cases hl : p.logger <;> simp [Run.iteration, Run.start, Run.body, hl]
    | _ => simp [Run.iteration, Run.start, Run.body]
  · cases e with
    | setC g =>
      cases g with
      | none => simp [Run.iteration, Run.start, Run.body]
      | some s => cases hl : p.logger <;> simp [Run.iteration, Run.start, Run.body, hl]
    | _ => simp [Run.iteration, Run.start, Run.body]

/-- C2 (as stated, refuted): in a processor state without a logger, a guardian set update
replaces p.gs and then panics in the log call, before Set is reached: nothing is passed to
Set, the holder keeps what it published before, and the published set differs from p.gs. -/
theorem set_update_without_logger_leaves_holder_unpublished :
    (Run.iteration idleHandlers sampleContext 0 sampleProcessorNoLogger
      (.setC (some sampleSet))).control = .panicked ∧
    (Run.iteration idleHandlers sampleContext 0 sampleProcessorNoLogger
      (.setC (some sampleSet))).p.gs = some sampleSet ∧
    (Run.iteration idleHandlers sampleContext 0 sampleProcessorNoLogger
      (.setC (some sampleSet))).actions = [] ∧
    (Run.iteration idleHandlers sampleContext 0 sampleProcessorNoLogger
      (.setC (some sampleSet))).p.gst.current = none ∧
    (Run.iteration idleHandlers sampleContext 0 sampleProcessorNoLogger
      (.setC (some sampleSet))).p.gst.current ≠
      (Run.iteration idleHandlers sampleContext 0 sampleProcessorNoLogger
        (.setC (some sampleSet))).p.gs := by
  decide

/-- C2 (amended): in every loop state whose logger is not nil and for every guardian set
received on the update channel, whatever its index, the iteration proceeds, the active set
p.gs is the received set, the value passed to Set is that same set, and afterwards the
published set equals p.gs. -/
theorem set_update_replaces_and_publishes (h : Handlers) (ctx : Context) (now : Time)
    (p : Processor) (g : GuardianSet) (hl : (Run.start p).logger ≠ none) :
    (Run.iteration h ctx now (Run.start p) (.setC (some g))).control = .next ∧
    (Run.iteration h ctx now (Run.start p) (.setC (some g))).p.gs = some g ∧
    (Run.iteration h ctx now (Run.start p) (.setC (some g))).actions =
      [.logInfo "guardian set updated" g.Keys g.Index, .gstSet (some g)] ∧
    (Run.iteration h ctx now (Run.start p) (.setC (some g))).p.gst.current = some g ∧
    (Run.iteration h ctx now (Run.start p) (.setC (some g))).p.gst.current =
      (Run.iteration h ctx now (Run.start p) (.setC (some g))).p.gs := by
  cases hp : p.logger with
  | none => exact absurd hp hl
  | some l => simp [Run.iteration, Run.start, Run.body, hp, GuardianSetState.Set]

/-- C2 (amended), at the sample processor, which has a logger, and the sample guardian set. -/
theorem set_update_replaces_and_publishes_witness :
    (Run.start sampleProcessor).logger ≠ none ∧
    (Run.iteration idleHandlers sampleContext 0 (Run.start sampleProcessor)
      (.setC (some sampleSet))).control = .next ∧
    (Run.iteration idleHandlers sampleContext 0 (Run.start sampleProcessor)
      (.setC (some sampleSet))).p.gs = some sampleSet ∧
    (Run.iteration idleHandlers sampleContext 0 (Run.start sampleProcessor)
      (.setC (some sampleSet))).actions =
      [.logInfo "guardian set updated" sampleSet.Keys sampleSet.Index,
        .gstSet (some sampleSet)] ∧
    (Run.iteration idleHandlers sampleContext 0 (Run.start sampleProcessor)
      (.setC (some sampleSet))).p.gst.current = some sampleSet ∧
    (Run.iteration idleHandlers sampleContext 0 (Run.start sampleProcessor)
      (.setC (some sampleSet))).p.gst.current =
      (Run.iteration idleHandlers sampleContext 0 (Run.start sampleProcessor)
        (.setC (some sampleSet))).p.gs :=
  ⟨by decide,
    set_update_replaces_and_publishes idleHandlers sampleContext 0 sampleProcessor sampleSet
      (by decide)⟩

/-- C3: in every loop state, an iteration invokes at most one handler, a handler it invokes
is the one that serves the select case of the event, and each of the five channel events is
handed to its own handler, whose result is the result of the iteration. -/
theorem iteration_routes_event_to_its_handler (h : Handlers) (ctx : Context) (now : Time)
    (p : Processor) (e : Event) :
    (handlerCalls (Run.iteration h ctx now (Run.start p) e).actions).length ≤ 1 ∧
    (∀ a ∈ handlerCalls (Run.iteration h ctx now (Run.start p) e).actions,
      a.serves = some e.source) ∧
    (∀ k, (Run.iteration h ctx now (Run.start p) (.lockC k)).actions = [.handleMessage k] ∧
      (Run.iteration h ctx now (Run.start p) (.lockC k)).p =
        (h.handleMessage ctx now (Run.start p) k).1 ∧
      (Run.iteration h ctx now (Run.start p) (.lockC k)).outputs =
        (h.handleMessage ctx now (Run.start p) k).2) ∧
    (∀ v, (Run.iteration h ctx now (Run.start p) (.injectC v)).actions = [.handleInjection v] ∧
      (Run.iteration h ctx now (Run.start p) (.injectC v)).p =
        (h.handleInjection ctx now (Run.start p) v).1 ∧
      (Run.iteration h ctx now (Run.start p) (.injectC v)).outputs =
        (h.handleInjection ctx now (Run.start p) v).2) ∧
    (∀ m, (Run.iteration h ctx now (Run.start p) (.obsvC m)).actions = [.handleObservation m] ∧
      (Run.iteration h ctx now (Run.start p) (.obsvC m)).p =
        (h.handleObservation ctx now (Run.start p) m).1 ∧
      (Run.iteration h ctx now (Run.start p) (.obsvC m)).outputs =
        (h.handleObservation ctx now (Run.start p) m).2) ∧
    (∀ m, (Run.iteration h ctx now (Run.start p) (.signedInC m)).actions =
        [.handleInboundSignedVAAWithQuorum m] ∧
      (Run.iteration h ctx now (Run.start p) (.signedInC m)).p =
        (h.handleInboundSignedVAAWithQuorum ctx now (Run.start p) m).1 ∧
      (Run.iteration h ctx now (Run.start p) (.signedInC m)).outputs =
        (h.handleInboundSignedVAAWithQuorum ctx now (Run.start p) m).2) ∧
    ((Run.iteration h ctx now (Run.start p) .cleanupC).actions = [.handleCleanup] ∧
      (Run.iteration h ctx now (Run.start p) .cleanupC).p =
        (h.handleCleanup ctx now (Run.start p)).1 ∧
      (Run.iteration h ctx now (Run.start p) .cleanupC).outputs =
        (h.handleCleanup ctx now (Run.start p)).2) ∧
    handlerCalls (Run.iteration h ctx now (Run.start p) .ctxDone).actions = [] ∧
    (∀ g, handlerCalls (Run.iteration h ctx now (Run.start p) (.setC g)).actions = []) := by
  refine ⟨?_, ?_, fun _ => ⟨rfl, rfl, rfl⟩, fun _ => ⟨rfl, rfl, rfl⟩, fun _ => ⟨rfl, rfl, rfl⟩,
    fun _ => ⟨rfl, rfl, rfl⟩, ⟨rfl, rfl, rfl⟩, rfl, fun g => ?_⟩
  · cases e with
    | setC g =>
      cases g with
      | none => simp [Run.iteration, Run.start, Run.body, handlerCalls, Action.serves]
      | some s =>
        cases hl : p.logger <;>
          simp [Run.iteration, Run.start, Run.body, handlerCalls, Action.serves, hl]
    | _ => simp [Run.iteration, Run.start, Run.body, handlerCalls, Action.serves]
  · cases e with
    | setC g =>
      cases g with
      | none => simp [Run.iteration, Run.start, Run.body, handlerCalls, Action.serves]
      | some s =>
        cases hl : p.logger <;>
          simp [Run.iteration, Run.start, Run.body, handlerCalls, Action.serves, hl]
    | _ => simp [Run.iteration, Run.start, Run.body, handlerCalls, Action.serves, Event.source]
  · cases g with
    | none => rfl
    | some s =>
      cases hl : p.logger <;>
        simp [Run.iteration, Run.start, Run.body, handlerCalls, Action.serves, hl]

/-- C4 (as stated, refuted): the select statement of Run has seven cases, not six. -/
theorem select_cases_are_not_six :
    selectCases.length = 7 ∧ selectCases.Nodup ∧ selectCases.length ≠ 6 := by
  decide

/-- C4 (amended): the select statement of Run waits on exactly seven sources, all distinct:
five input channels, the cancellation signal and the cleanup timer; every one of them can
deliver an event, and each iteration is served by exactly one of them. -/
theorem select_waits_on_seven_exclusive_sources (e : Event) (w : WaitSource) :
    selectCases.length = 7 ∧ selectCases.Nodup ∧
    (selectCases.filter WaitSource.isInputChannel).length = 5 ∧
    selectCases.filter (fun c => !c.isInputChannel) = [.ctxDone, .cleanupC] ∧
    w ∈ selectCases ∧ (∃ e2 : Event, e2.source = w) ∧
    selectCases.count e.source = 1 := by
  refine ⟨by decide, by decide, by decide, by decide, ?_, ?_, ?_⟩
  · cases w <;> decide
  · cases w
    · exact ⟨.ctxDone, rfl⟩
    · exact ⟨.setC none, rfl⟩
    · exact ⟨.lockC none, rfl⟩
    · exact ⟨.injectC none, rfl⟩
    · exact ⟨.obsvC none, rfl⟩
    · exact ⟨.signedInC none, rfl⟩
    · exact ⟨.cleanupC, rfl⟩
  · cases e <;> simp only [Event.source] <;> decide

/-- C5 (as stated, refuted): a nil guardian set received on the update channel makes the
update step panic; the event that follows is never processed and its handler never runs. -/
theorem nil_set_update_panics_and_stops_loop :
    (Run.loop idleHandlers sampleContext sampleProcessor
      [(1, .setC none), (2, .lockC (some sampleMessage))]).status = .panicked ∧
    (Run.loop idleHandlers sampleContext sampleProcessor
      [(1, .setC none), (2, .lockC (some sampleMessage))]).consumed = 1 ∧
    (Run.loop idleHandlers sampleContext sampleProcessor
      [(1, .setC none), (2, .lockC (some sampleMessage))]).actions = [] := by
  decide

/-- C5 (amended): in every loop state, the guardian set update step completes without
aborting if and only if the received guardian set is not nil and the logger of the processor
is not nil, and then the loop goes on with the events that follow, the ticker still in
place; on a nil guardian set or a nil logger the update step panics and no further event is
processed. -/
theorem set_update_completes_unless_nil (h : Handlers) (ctx : Context) (now : Time)
    (p : Processor) (g : Option GuardianSet) (es : List (Time × Event)) :
    ((Run.iteration h ctx now (Run.start p) (.setC g)).control = .next ↔
      (g ≠ none ∧ (Run.start p).logger ≠ none)) ∧
    ((Run.iteration h ctx now (Run.start p) (.setC g)).control = .panicked ↔
      (g = none ∨ (Run.start p).logger = none)) ∧
    ((g ≠ none ∧ (Run.start p).logger ≠ none) →
      (Run.loop h ctx (Run.start p) ((now, .setC g) :: es)).status =
        (Run.loop h ctx (Run.iteration h ctx now (Run.start p) (.setC g)).p es).status ∧
      (Run.loop h ctx (Run.start p) ((now, .setC g) :: es)).consumed =
        (Run.loop h ctx (Run.iteration h ctx now (Run.start p) (.setC g)).p es).consumed
          + 1 ∧
      (Run.iteration h ctx now (Run.start p) (.setC g)).p.cleanup = (Run.start p).cleanup) ∧
    ((g = none ∨ (Run.start p).logger = none) →
      (Run.loop h ctx (Run.start p) ((now, .setC g) :: es)).status = .panicked ∧
      (Run.loop h ctx (Run.start p) ((now, .setC g) :: es)).consumed = 1) := by
  cases g with
  | none => simp [Run.loop, Run.iteration, Run.start, Run.body]
  | some s =>
    cases hl : p.logger with
    | none => simp [Run.loop, Run.iteration, Run.start, Run.body, hl]
    | some l => simp [Run.loop, Run.iteration, Run.start, Run.body, hl]

/-- C5 (amended), at the sample processor, which has a logger, and the sample guardian set:
the update completes and the local observation that follows is handled. -/
theorem set_update_completes_unless_nil_witness :
    (Run.iteration idleHandlers sampleContext 1 (Run.start sampleProcessor)
      (.setC (some sampleSet))).control = .next ∧
    (Run.loop idleHandlers sampleContext (Run.start sampleProcessor)
      [(1, .setC (some sampleSet)), (2, .lockC (some sampleMessage))]).status = .waiting ∧
    (Run.loop idleHandlers sampleContext (Run.start sampleProcessor)
      [(1, .setC (some sampleSet)), (2, .lockC (some sampleMessage))]).consumed = 2 :=
  have hok : some sampleSet ≠ none ∧ (Run.start sampleProcessor).logger ≠ none := by decide
  have hthm := set_update_completes_unless_nil idleHandlers sampleContext 1 sampleProcessor
    (some sampleSet) [(2, .lockC (some sampleMessage))]
  ⟨hthm.1.2 hok, (hthm.2.2.1 hok).1.trans (by decide), (hthm.2.2.1 hok).2.1.trans (by decide)⟩

/-- C6: in every loop state, on the cancellation event the iteration returns ctx.Err() and
leaves the whole processor as it was, in particular the aggregation table, the active
guardian set and the published holder; it makes no call, invokes no handler and produces no
output, and the loop consumes none of the events still pending. -/
theorem cancellation_returns_without_draining (h : Handlers) (ctx : Context) (now : Time)
    (p : Processor) (es : List (Time × Event)) :
    (Run.iteration h ctx now (Run.start p) .ctxDone).control = .returned ctx.Err ∧
    (Run.iteration h ctx now (Run.start p) .ctxDone).p = Run.start p ∧
    (Run.iteration h ctx now (Run.start p) .ctxDone).p.state.vaaSignatures =
      (Run.start p).state.vaaSignatures ∧
    (Run.iteration h ctx now (Run.start p) .ctxDone).p.gs = (Run.start p).gs ∧
    (Run.iteration h ctx now (Run.start p) .ctxDone).p.gst = (Run.start p).gst ∧
    (Run.iteration h ctx now (Run.start p) .ctxDone).actions = [] ∧
    (Run.iteration h ctx now (Run.start p) .ctxDone).outputs = [] ∧
    (Run.loop h ctx (Run.start p) ((now, .ctxDone) :: es)).status = .returned ctx.Err ∧
    (Run.loop h ctx (Run.start p) ((now, .ctxDone) :: es)).p = Run.start p ∧
    (Run.loop h ctx (Run.start p) ((now, .ctxDone) :: es)).actions = [] ∧
    (Run.loop h ctx (Run.start p) ((now, .ctxDone) :: es)).outputs = [] ∧
    (Run.loop h ctx (Run.start p) ((now, .ctxDone) :: es)).consumed = 1 :=
  ⟨rfl, rfl, rfl, rfl, rfl, rfl, rfl, rfl, rfl, rfl, rfl, rfl⟩

/-- C7: handling a guardian set update, nil or not, leaves the aggregation table as it was:
the table is the same list of records, so every digest has the same record, field by field,
before and after, and nothing is handed to a collaborator. -/
theorem set_update_leaves_table_unchanged (h : Handlers) (ctx : Context) (now : Time)
    (p : Processor) (g : Option GuardianSet) (hash : String) :
    (Run.iteration h ctx now p (.setC g)).p.state = p.state ∧
    (Run.iteration h ctx now p (.setC g)).p.state.vaaSignatures = p.state.vaaSignatures ∧
    (Run.iteration h ctx now p (.setC g)).p.state.vaaSignatures.get hash =
      p.state.vaaSignatures.get hash ∧
    (Run.iteration h ctx now p (.setC g)).outputs = [] := by
  unfold Run.iteration
  cases p.cleanup with
  | none => exact ⟨rfl, rfl, rfl, rfl⟩
  | some t =>
    cases g with
    | none => exact ⟨rfl, rfl, rfl, rfl⟩
    | some s =>
      simp only [Run.body]
      split <;> exact ⟨rfl, rfl, rfl, rfl⟩

/-- C8: along every sequence of events processed by Run over the handlers of the design
document during which the record of a digest is not evicted, a submitted flag that is set
stays set and the record is not submitted again; from any state the attestation of the digest
is submitted at most once, whatever is delivered and however often, and a submission leaves
the flag set. -/
theorem submitted_is_monotone_and_submission_unique (prim : Primitives) (ctx : Context)
    (hash : String) (es : List (Time × Event)) (p : Processor)
    (hkeep : Run.keeps (handlers prim) ctx hash p es = true) :
    (submittedAt p hash = true →
      submittedAt (Run.loop (handlers prim) ctx p es).p hash = true ∧
      submissions hash (Run.loop (handlers prim) ctx p es).outputs = 0) ∧
    submissions hash (Run.loop (handlers prim) ctx p es).outputs ≤ 1 ∧
    (submissions hash (Run.loop (handlers prim) ctx p es).outputs = 1 →
      submittedAt (Run.loop (handlers prim) ctx p es).p hash = true) := by
  induction es generalizing p with
  | nil => exact ⟨fun hs => ⟨hs, rfl⟩, Nat.zero_le _, fun h1 => by cases h1⟩
  | cons te es ih =>
    obtain ⟨now, e⟩ := te
    obtain ⟨s1, s2, s3, s4⟩ := stepOk_iteration prim ctx now p e hash
    simp only [Run.keeps, Bool.and_eq_true, Bool.or_eq_true, Bool.not_eq_true'] at hkeep
    obtain ⟨hk1, hk2⟩ := hkeep
    have hsub : submittedAt p hash = true →
        submittedAt (Run.iteration (handlers prim) ctx now p e).p hash = true := by
      intro hs
      apply s1 hs
      rcases hk1 with hno | hyes
      · rw [hasRecord_of_submittedAt p hash hs] at hno
        cases hno
      · exact hyes
    cases hc : (Run.iteration (handlers prim) ctx now p e).control with
    | returned err =>
      simp only [Run.loop, hc]
      exact ⟨fun hs => ⟨hsub hs, s2 hs⟩, s3, s4⟩
    | panicked =>
      simp only [Run.loop, hc]
      exact ⟨fun hs => ⟨hsub hs, s2 hs⟩, s3, s4⟩
    | next =>
      rw [hc] at hk2
      obtain ⟨i1, i2, i3⟩ := ih _ hk2
      simp only [Run.loop, hc, submissions_append]
      refine ⟨fun hs => ?_, ?_, fun h1 => ?_⟩
      · obtain ⟨j1, j2⟩ := i1 (hsub hs)
        have := s2 hs
        exact ⟨j1, by omega⟩
      · by_cases h0 : submissions hash (Run.iteration (handlers prim) ctx now p e).outputs = 0
        · omega
        · have h1 : submissions hash (Run.iteration (handlers prim) ctx now p e).outputs = 1 := by
            omega
          have := (i1 (s4 h1)).2
          omega
      · by_cases h0 : submissions hash (Run.iteration (handlers prim) ctx now p e).outputs = 0
        · exact i3 (by omega)
        · have h2 : submissions hash (Run.iteration (handlers prim) ctx now p e).outputs = 1 := by
            omega
          exact (i1 (s4 h2)).1

/-- C8, at a sample run: a guardian set update, then the same local observation twice and the
same remote signature twice. The record is kept throughout and is submitted exactly once. -/
theorem submitted_is_monotone_and_submission_unique_witness :
    Run.keeps (handlers samplePrimitives) sampleContext "zero" sampleProcessor sampleRun = true ∧
    submissions "zero"
      (Run.loop (handlers samplePrimitives) sampleContext sampleProcessor sampleRun).outputs = 1 ∧
    ((submittedAt sampleProcessor "zero" = true →
      submittedAt (Run.loop (handlers samplePrimitives) sampleContext sampleProcessor
        sampleRun).p "zero" = true ∧
      submissions "zero"
        (Run.loop (handlers samplePrimitives) sampleContext sampleProcessor sampleRun).outputs
          = 0) ∧
    submissions "zero"
      (Run.loop (handlers samplePrimitives) sampleContext sampleProcessor sampleRun).outputs
        ≤ 1 ∧
    (submissions "zero"
      (Run.loop (handlers samplePrimitives) sampleContext sampleProcessor sampleRun).outputs
        = 1 →
      submittedAt (Run.loop (handlers samplePrimitives) sampleContext sampleProcessor
        sampleRun).p "zero" = true)) :=
  ⟨by decide, by decide,
    submitted_is_monotone_and_submission_unique samplePrimitives sampleContext "zero"
      sampleRun sampleProcessor (by decide)⟩

/-- C9: Run creates the cleanup ticker before the loop, with a period of thirty seconds
(30000000000 nanoseconds) whatever the processor it runs on, and stores it in p.cleanup: the
loop runs on the processor that holds this ticker, so that on a fresh processor the first
select does not panic and a cleanup tick reaches handleCleanup. The creation is the first
call of Run and the only ticker creation of the whole run, and neither the cancellation nor
a guardian set update replaces the ticker. -/
theorem run_creates_one_ticker_of_thirty_seconds (h : Handlers) (ctx : Context)
    (p : Processor) (es : List (Time × Event)) (now : Time) (g : Option GuardianSet) :
    (Run.start p).cleanup = some (NewTicker (30 * Second)) ∧
    (NewTicker (30 * Second)).d = 30000000000 ∧
    (NewTicker (30 * Second)).d / Second = 30 ∧
    (Run h ctx p es).actions.head? = some (.newTicker (30 * Second)) ∧
    ((Run h ctx p es).actions.filter Action.isNewTicker).length = 1 ∧
    (Run h ctx p []).p.cleanup = some (NewTicker (30 * Second)) ∧
    (Run h ctx p []).p = { p with cleanup := some (NewTicker (30 * Second)) } ∧
    (Run h ctx p []).status = .waiting ∧
    (Run h ctx p es).status = (Run.loop h ctx (Run.start p) es).status ∧
    (Run h ctx p es).p = (Run.loop h ctx (Run.start p) es).p ∧
    (Run h ctx p es).actions =
      .newTicker (30 * Second) :: (Run.loop h ctx (Run.start p) es).actions ∧
    (Run h ctx p es).outputs = (Run.loop h ctx (Run.start p) es).outputs ∧
    (Run h ctx p es).consumed = (Run.loop h ctx (Run.start p) es).consumed ∧
    (Run h ctx p [(now, .ctxDone)]).status = .returned ctx.Err ∧
    (Run h ctx p [(now, .ctxDone)]).p.cleanup = some (NewTicker (30 * Second)) ∧
    (Run h ctx p [(now, .setC g)]).p.cleanup = some (NewTicker (30 * Second)) ∧
    (Run h ctx p [(now, .cleanupC)]).status = .waiting ∧
    (Run h ctx p [(now, .cleanupC)]).actions = [.newTicker (30 * Second), .handleCleanup] ∧
    (Run h ctx p [(now, .cleanupC)]).p = (h.handleCleanup ctx now (Run.start p)).1 := by
  refine ⟨rfl, by decide, by decide, rfl, ?_, rfl, rfl, rfl, rfl, rfl, rfl, rfl, rfl, rfl, rfl,
    ?_, rfl, rfl, rfl⟩
  · simp [Run, List.filter_cons, Action.isNewTicker, loop_creates_no_ticker]
  · cases g with
    | none => rfl
    | some s =>
      cases hl : p.logger <;> simp [Run, Run.loop, Run.iteration, Run.start, Run.body, hl]

/-- C10: given a guardian key that is not nil, NewProcessor returns a processor with an
empty aggregation table, no active guardian set, no cleanup ticker, the address derived from
the public key of the guardian key, and every channel, key, holder and devnet argument in
the field of the same name. -/
theorem new_processor_fields (lib : Library) (ctx : Context) (db : Option Handle)
    (lockC : Chan (Option MessagePublication)) (setC : Chan (Option GuardianSet))
    (sendC : Chan Bytes) (obsvC : Chan (Option SignedObservation))
    (injectC : Chan (Option VAA)) (signedInC : Chan (Option SignedVAAWithQuorum))
    (gk : PrivateKey) (gst : GuardianSetState) (devnetMode : Bool)
    (devnetNumGuardians : Nat) (devnetEthRPC : String)
    (attestationEvents : Option Handle) (notifier : Option Handle) (hash : String) :
    ∃ p : Processor,
      NewProcessor lib ctx db lockC setC sendC obsvC injectC signedInC (some gk) gst
        devnetMode devnetNumGuardians devnetEthRPC attestationEvents notifier = some p ∧
      p.state.vaaSignatures = [] ∧ p.state.vaaSignatures.get hash = none ∧
      p.gs = none ∧ p.cleanup = none ∧
      p.ourAddr = lib.PubkeyToAddress gk.PublicKey ∧
      p.lockC = lockC ∧ p.setC = setC ∧ p.sendC = sendC ∧ p.obsvC = obsvC ∧
      p.signedInC = signedInC ∧ p.injectC = injectC ∧
      p.gk = gk ∧ p.gst = gst ∧ p.devnetMode = devnetMode ∧
      p.devnetNumGuardians = devnetNumGuardians ∧ p.devnetEthRPC = devnetEthRPC ∧
      p.db = db ∧ p.attestationEvents = attestationEvents ∧ p.notifier = notifier ∧
      p.logger = lib.Logger ctx :=
  ⟨_, rfl, rfl, rfl, rfl, rfl, rfl, rfl, rfl, rfl, rfl, rfl, rfl, rfl, rfl, rfl, rfl, rfl,
    rfl, rfl, rfl, rfl⟩

end Processor
